import Mathlib

/-!
Shallow embedding of `src/mcp/server/fastmcp/server.py` (FastMCP) and proofs
about its behaviour.  Python values reaching the content normaliser are
modelled by an inductive type, stateful handler execution is modelled by an
explicit trace of emitted effects, and fallible Python code returns `Except`.
-/

namespace Mcp

/-- A typed protocol content block (`mcp.types.ContentBlock`): text, image,
audio, resource link or embedded resource.  Only the shape matters here. -/
inductive ContentBlock where
  | text (text : String)
  | imageContent (data : String) (mimeType : String)
  | audioContent (data : String) (mimeType : String)
  | resourceLink (uri : String)
  | embeddedResource (uri : String) (content : String)
deriving DecidableEq, Repr

/-- `mcp.server.fastmcp.utilities.types.Image`: raw image data plus MIME type.
Modelled from the spec: an image-like value carries the payload that its typed
image-content form exposes. -/
structure Image where
  data : String
  mimeType : String
deriving DecidableEq, Repr

/-- `Image.to_image_content`: the typed image-content form of an `Image`. -/
def Image.to_image_content (i : Image) : ContentBlock :=
  ContentBlock.imageContent i.data i.mimeType

/-- JSON-serialisable Python values that reach the fallback branch of
`_convert_to_content`.  `unserializable s` stands for an object the serialiser
cannot represent natively, whose string coercion is `s`. -/
inductive JVal where
  | null
  | bool (b : Bool)
  | int (n : Int)
  | str (s : String)
  | arr (xs : List JVal)
  | obj (fields : List (String × JVal))
  | unserializable (strCoercion : String)

/-- Escape a string for inclusion in a JSON document. -/
def jsonEscape (s : String) : String :=
  String.mk (s.data.flatMap (fun c =>
    if c = '\\' then ['\\', '\\']
    else if c = '"' then ['\\', '"']
    else [c]))

/-- `n` spaces. -/
def spaces (n : Nat) : String :=
  String.mk (List.replicate n ' ')

mutual

/-- Modelled from the spec: `pydantic_core.to_json(v, fallback=str, indent=2)`
(an external library call): canonical JSON text with stable (insertion-order)
key ordering and two-space indentation; a value the serialiser cannot
represent natively is replaced by its string coercion. -/
def to_json_indent2_at (ind : Nat) : JVal → String
  | JVal.null => "null"
  | JVal.bool true => "true"
  | JVal.bool false => "false"
  | JVal.int n => toString n
  | JVal.str s => "\"" ++ jsonEscape s ++ "\""
  | JVal.unserializable s => "\"" ++ jsonEscape s ++ "\""
  | JVal.arr [] => "[]"
  | JVal.arr (x :: xs) =>
      "[\n" ++ jsonItems (ind + 2) (x :: xs) ++ "\n" ++ spaces ind ++ "]"
  | JVal.obj [] => "\x7b\x7d"
  | JVal.obj (f :: fs) =>
      "\x7b\n" ++ jsonFields (ind + 2) (f :: fs) ++ "\n" ++ spaces ind ++ "\x7d"

/-- Comma-and-newline separated serialisation of array items. -/
def jsonItems (ind : Nat) : List JVal → String
  | [] => ""
  | [x] => spaces ind ++ to_json_indent2_at ind x
  | x :: y :: xs =>
      spaces ind ++ to_json_indent2_at ind x ++ ",\n" ++ jsonItems ind (y :: xs)

/-- Comma-and-newline separated serialisation of object fields. -/
def jsonFields (ind : Nat) : List (String × JVal) → String
  | [] => ""
  | [(k, v)] =>
      spaces ind ++ "\"" ++ jsonEscape k ++ "\": " ++ to_json_indent2_at ind v
  | (k, v) :: f :: fs =>
      spaces ind ++ "\"" ++ jsonEscape k ++ "\": " ++ to_json_indent2_at ind v
        ++ ",\n" ++ jsonFields ind (f :: fs)

end

/-- Top-level canonical JSON serialisation (two-space indent). -/
def to_json_indent2 (v : JVal) : String :=
  to_json_indent2_at 0 v

/-- A Python value as seen by `_convert_to_content`: `None`, an already-typed
content block, an `Image`, a list, a tuple, a plain string, or any other
(JSON-serialisable) object. -/
inductive PyVal where
  | none
  | content (c : ContentBlock)
  | image (i : Image)
  | pylist (xs : List PyVal)
  | pytuple (xs : List PyVal)
  | str (s : String)
  | other (v : JVal)

mutual

/-- `_convert_to_content` (server.py lines 945-964): convert a handler result
to a sequence of content blocks. -/
def _convert_to_content : PyVal → List ContentBlock
  | PyVal.none => []
  | PyVal.content c => [c]
  | PyVal.image i => [i.to_image_content]
  | PyVal.pylist xs => convertEach xs
  | PyVal.pytuple xs => convertEach xs
  | PyVal.str s => [ContentBlock.text s]
  | PyVal.other v => [ContentBlock.text (to_json_indent2 v)]

/-- `chain.from_iterable(_convert_to_content(item) for item in result)`. -/
def convertEach : List PyVal → List ContentBlock
  | [] => []
  | x :: xs => _convert_to_content x ++ convertEach xs

end

/-- Flattening a mapped list is what `chain.from_iterable` computes. -/
theorem convertEach_eq_flatten (xs : List PyVal) :
    convertEach xs = (xs.map _convert_to_content).flatten := by
  induction xs with
  | nil => rfl
  | cons x xs ih => simp [convertEach, ih]

/-- C1: `_convert_to_content` maps `None` to the empty sequence, a typed
content block to the one-element sequence containing it unchanged, an `Image`
to its image-content form, a list or tuple to the depth-first left-to-right
concatenation of the normalisations of its elements, a plain string to one
verbatim text block, and any other value to one text block holding its
canonical JSON serialisation (stable key order, two-space indent, string
coercion as fallback). -/
theorem convert_to_content_rules :
    _convert_to_content PyVal.none = []
    ∧ (∀ c : ContentBlock, _convert_to_content (PyVal.content c) = [c])
    ∧ (∀ i : Image, _convert_to_content (PyVal.image i) = [i.to_image_content])
    ∧ (∀ xs : List PyVal,
        _convert_to_content (PyVal.pylist xs)
          = (xs.map _convert_to_content).flatten)
    ∧ (∀ xs : List PyVal,
        _convert_to_content (PyVal.pytuple xs)
          = (xs.map _convert_to_content).flatten)
    ∧ (∀ s : String, _convert_to_content (PyVal.str s) = [ContentBlock.text s])
    ∧ (∀ v : JVal,
        _convert_to_content (PyVal.other v)
          = [ContentBlock.text (to_json_indent2 v)]) := by
  refine ⟨rfl, fun c => rfl, fun i => rfl, fun xs => ?_, fun xs => ?_,
    fun s => rfl, fun v => rfl⟩
  · simpa [_convert_to_content] using convertEach_eq_flatten xs
  · simpa [_convert_to_content] using convertEach_eq_flatten xs

/-- C2: content normalisation is idempotent — normalising a sequence of typed
content blocks (as every value in the image of `_convert_to_content` is)
yields the same sequence of blocks. -/
theorem convert_to_content_idempotent (bs : List ContentBlock) :
    _convert_to_content (PyVal.pylist (bs.map PyVal.content)) = bs := by
  induction bs with
  | nil => rfl
  | cons b bs ih => simpa [_convert_to_content, convertEach] using ih

/-- Witness for C2 at a concrete block sequence. -/
theorem convert_to_content_idempotent_witness :
    _convert_to_content
        (PyVal.pylist ([ContentBlock.text "hi",
          ContentBlock.imageContent "d" "image/png"].map PyVal.content))
      = [ContentBlock.text "hi", ContentBlock.imageContent "d" "image/png"] :=
  convert_to_content_idempotent
    [ContentBlock.text "hi", ContentBlock.imageContent "d" "image/png"]

/-- Python exceptions that the embedded code can raise. -/
inductive PyErr where
  | valueError (msg : String)
  | assertionError (msg : String)
  | resourceError (msg : String)
  | runtimeError (msg : String)
  | toolError (msg : String)
deriving DecidableEq, Repr

/-- `mcp.server.auth.settings.AuthSettings` — only its presence matters to the
constructor check; one representative field is kept. -/
structure AuthSettings where
  issuerUrl : String
deriving DecidableEq, Repr

/-- The auth-validation block of `FastMCP.__init__` (server.py lines 158-166):
with auth settings present, both or neither of the provider and verifier is an
error; with auth settings absent, either one is an error. -/
def validate_auth_config (auth : Option AuthSettings)
    (auth_server_provider token_verifier : Bool) : Except PyErr Unit :=
  match auth with
  | some _ =>
    if auth_server_provider && token_verifier then
      Except.error (PyErr.valueError
        "Cannot specify both auth_server_provider and token_verifier")
    else if !auth_server_provider && !token_verifier then
      Except.error (PyErr.valueError
        "Must specify either auth_server_provider or token_verifier when auth is enabled")
    else
      Except.ok ()
  | none =>
    if auth_server_provider || token_verifier then
      Except.error (PyErr.valueError
        "Cannot specify auth_server_provider or token_verifier without auth settings")
    else
      Except.ok ()

/-- The state a successful `FastMCP.__init__` leaves behind for the auth
wiring: the stored provider/verifier flags, with the verifier backfilled from
the provider for backwards compatibility (server.py lines 168-173). -/
structure AuthWiring where
  auth : Option AuthSettings
  auth_server_provider : Bool
  token_verifier : Bool
deriving DecidableEq, Repr

/-- `FastMCP.__init__` restricted to its auth wiring: the validation runs
inside the constructor itself, so an inconsistent configuration is an error at
construction time and a consistent one yields the constructed state. -/
def fastMCPInitAuth (auth : Option AuthSettings)
    (auth_server_provider token_verifier : Bool) : Except PyErr AuthWiring :=
  match validate_auth_config auth auth_server_provider token_verifier with
  | Except.error e => Except.error e
  | Except.ok () =>
    Except.ok
      { auth := auth
        auth_server_provider := auth_server_provider
        token_verifier :=
          token_verifier || (auth_server_provider && !token_verifier) }

/-- C3: construction raises exactly when the auth wiring is inconsistent —
auth settings present with both or neither of provider and verifier, or auth
settings absent with either of them; in every other case construction
succeeds past this check, and the error (when any) comes from the constructor
itself. -/
theorem fastmcp_init_auth_errors
    (auth : Option AuthSettings) (p v : Bool) :
    (∃ e, fastMCPInitAuth auth p v = Except.error e) ↔
      ((auth.isSome = true ∧ ((p = true ∧ v = true) ∨ (p = false ∧ v = false)))
        ∨ (auth = none ∧ (p = true ∨ v = true))) := by
  cases auth <;> cases p <;> cases v <;>
    simp [fastMCPInitAuth, validate_auth_config]

/-- Progress tokens are strings or integers (`mcp.types.ProgressToken`). -/
inductive ProgressToken where
  | str (s : String)
  | int (n : Int)
deriving DecidableEq, Repr

/-- The caller-supplied request metadata (`RequestParams.Meta`): an optional
progress token. -/
structure RequestMeta where
  progressToken : Option ProgressToken
deriving DecidableEq, Repr

/-- The ambient request context (`mcp.shared.context.RequestContext`) as the
`Context` methods use it: a request id, the optional caller metadata, and the
owning session (represented by the effect trace notifications are sent on). -/
structure RequestCtx where
  requestId : String
  meta : Option RequestMeta
deriving DecidableEq, Repr

/-- Log levels accepted by `Context.log`. -/
inductive LogLevel where
  | debug
  | info
  | warning
  | error
deriving DecidableEq, Repr

/-- Observable side effects of running embedded handler/context code:
notifications sent on the session, handler executions, and process-local
error logging. -/
inductive Effect where
  | progressNotification (token : ProgressToken) (progress : Rat)
      (total : Option Rat) (message : Option String)
  | logMessage (level : LogLevel) (data : String)
      (loggerName : Option String) (relatedRequestId : String)
  | elicitationRequest (message : String) (relatedRequestId : String)
  | resourceHandlerRun (uri : String)
  | serverLogError (message : String)
deriving DecidableEq, Repr

/-- A registered concrete resource as `FastMCP.read_resource` consumes it:
its URI, MIME type, and the outcome of running `resource.read()` (content, or
the message of the exception the handler raises). -/
structure Resource where
  uri : String
  mime_type : Option String
  read : Except String String

/-- `mcp.server.lowlevel.helper_types.ReadResourceContents`. -/
structure ReadResourceContents where
  content : String
  mimeType : Option String
deriving DecidableEq, Repr

/-- A registered prompt as `FastMCP.get_prompt` consumes it: its name and the
outcome of rendering it (messages, or the raised exception's message). -/
structure PromptDef where
  name : String
  render : Option (List (String × String)) → Except String (List String)

/-- `mcp.types.GetPromptResult` restricted to what the facade produces: the
rendered message list. -/
structure GetPromptResult where
  messages : List String
deriving DecidableEq, Repr

/-- A registered tool as dispatch consumes it: its name, its declared
input-shape validator, and its handler. -/
structure ToolDef where
  name : String
  validArgs : List (String × PyVal) → Bool
  handler : List (String × PyVal) → PyVal

/-- The registries of one FastMCP server that the protocol operations
consult. -/
structure FastMCPState where
  tools : List ToolDef
  resources : List Resource
  prompts : List PromptDef

/-- Modelled from the spec: `ResourceManager.get_resource` (the resource
registry lives outside this file's source); per §4.1 it resolves a URI in the
keyed store, returning the capability or "not found".  Template resolution is
folded into the same lookup: `none` means neither an exact resource nor a
template matched. -/
def get_resource (resources : List Resource) (uri : String) : Option Resource :=
  resources.find? (fun r => r.uri = uri)

/-- `FastMCP.read_resource` (server.py lines 304-316): unknown URI raises a
`ResourceError` naming it before any handler runs; a handler exception is
caught, logged, and re-raised as a `ResourceError` carrying the handler's own
message. -/
def fastMCPReadResource (s : FastMCPState) (uri : String) :
    List Effect × Except PyErr (List ReadResourceContents) :=
  match get_resource s.resources uri with
  | none =>
    ([], Except.error (PyErr.resourceError ("Unknown resource: " ++ uri)))
  | some r =>
    match r.read with
    | Except.ok content =>
      ([Effect.resourceHandlerRun uri],
        Except.ok [{ content := content, mimeType := r.mime_type }])
    | Except.error e =>
      ([Effect.resourceHandlerRun uri,
          Effect.serverLogError ("Error reading resource " ++ uri ++ ": " ++ e)],
        Except.error (PyErr.resourceError e))

/-- Modelled from the spec: `PromptManager.render_prompt` (the prompt registry
lives outside this file's source); per §4.1 it resolves the prompt by name —
unknown names signal "not found" — and renders it with the given
arguments. -/
def render_prompt (prompts : List PromptDef) (name : String)
    (arguments : Option (List (String × String))) :
    Except String (List String) :=
  match prompts.find? (fun p => p.name = name) with
  | none => Except.error ("Unknown prompt: " ++ name)
  | some p => p.render arguments

/-- `FastMCP.get_prompt` (server.py lines 934-942): a rendering failure is
caught, logged, and re-raised as a `ValueError` carrying the original
message. -/
def fastMCPGetPrompt (s : FastMCPState) (name : String)
    (arguments : Option (List (String × String))) :
    List Effect × Except PyErr GetPromptResult :=
  match render_prompt s.prompts name arguments with
  | Except.ok msgs => ([], Except.ok { messages := msgs })
  | Except.error e =>
    ([Effect.serverLogError ("Error getting prompt " ++ name ++ ": " ++ e)],
      Except.error (PyErr.valueError e))

/-- `Context` (server.py lines 967-1013): the capability handle injected into
handlers, holding an optional ambient request context and an optional back
reference to the server. -/
structure Context where
  request_context : Option RequestCtx
  fastmcp : Option FastMCPState

/-- The message both the `request_context` and `fastmcp` accessors raise with
when their slot is empty. -/
def unavailableMsg : String :=
  "Context is not available outside of a request"

/-- `FastMCP.get_context` (server.py lines 259-268): the ambient request
context when one is in flight (`none` otherwise), and always a reference to
the server itself. -/
def FastMCP.get_context (s : FastMCPState)
    (ambient : Option RequestCtx) : Context :=
  { request_context := ambient, fastmcp := some s }

/-- `Context.report_progress` (server.py lines 1031-1049): reading
`self.request_context` raises when no request is in flight; with a request but
no progress token the call returns without emitting anything; with a token it
sends exactly one progress notification carrying token, progress, total and
message. -/
def Context.report_progress (ctx : Context) (progress : Rat)
    (total : Option Rat) (message : Option String) :
    List Effect × Except PyErr Unit :=
  match ctx.request_context with
  | none => ([], Except.error (PyErr.valueError unavailableMsg))
  | some rc =>
    match (match rc.meta with
           | some m => m.progressToken
           | none => none) with
    | none => ([], Except.ok ())
    | some tok =>
      ([Effect.progressNotification tok progress total message], Except.ok ())

/-- `Context.read_resource` (server.py lines 1051-1061): asserts the server
reference is present, then delegates to `FastMCP.read_resource`; the request
context is never consulted. -/
def Context.read_resource (ctx : Context) (uri : String) :
    List Effect × Except PyErr (List ReadResourceContents) :=
  match ctx.fastmcp with
  | none => ([], Except.error (PyErr.assertionError unavailableMsg))
  | some s => fastMCPReadResource s uri

/-- Possible client replies to an elicitation round-trip. -/
inductive ElicitationOutcome where
  | accept (data : String)
  | decline
  | cancel
deriving DecidableEq, Repr

/-- `Context.elicit` (server.py lines 1063-1092): evaluating
`self.request_context.session` raises when no request is in flight; otherwise
one elicitation request is sent on the session, tagged with the request id.
Modelled from the spec: `elicit_with_validation` (outside this file's source)
suspends until the client answers accept, decline or cancel, so the client's
reply is passed in as an argument and returned on success. -/
def Context.elicit (ctx : Context) (message : String)
    (clientReply : ElicitationOutcome) :
    List Effect × Except PyErr ElicitationOutcome :=
  match ctx.request_context with
  | none => ([], Except.error (PyErr.valueError unavailableMsg))
  | some rc =>
    ([Effect.elicitationRequest message rc.requestId], Except.ok clientReply)

/-- `Context.log` (server.py lines 1094-1114): evaluating
`self.request_context.session` raises when no request is in flight; otherwise
one leveled log notification tagged with the request id is sent. -/
def Context.log (ctx : Context) (level : LogLevel) (message : String)
    (loggerName : Option String) : List Effect × Except PyErr Unit :=
  match ctx.request_context with
  | none => ([], Except.error (PyErr.valueError unavailableMsg))
  | some rc =>
    ([Effect.logMessage level message loggerName rc.requestId], Except.ok ())

/-- `Context.debug` (server.py lines 1132-1134). -/
def Context.debug (ctx : Context) (message : String) :
    List Effect × Except PyErr Unit :=
  ctx.log LogLevel.debug message none

/-- `Context.info` (server.py lines 1136-1138). -/
def Context.info (ctx : Context) (message : String) :
    List Effect × Except PyErr Unit :=
  ctx.log LogLevel.info message none

/-- `Context.warning` (server.py lines 1140-1142). -/
def Context.warning (ctx : Context) (message : String) :
    List Effect × Except PyErr Unit :=
  ctx.log LogLevel.warning message none

/-- `Context.error` (server.py lines 1144-1146). -/
def Context.error (ctx : Context) (message : String) :
    List Effect × Except PyErr Unit :=
  ctx.log LogLevel.error message none

/-- A demo resource whose handler succeeds. -/
def demoResource : Resource :=
  { uri := "resource://data", mime_type := some "text/plain",
    read := Except.ok "hello" }

/-- A demo resource whose handler raises. -/
def demoFailingResource : Resource :=
  { uri := "resource://fail", mime_type := none,
    read := Except.error "disk error" }

/-- A demo tool: `echo`, accepting any arguments, returning the string of its
`x` argument when it is a string. -/
def demoTool : ToolDef :=
  { name := "echo",
    validArgs := fun _ => true,
    handler := fun args =>
      match args.find? (fun kv => kv.1 = "x") with
      | some kv => kv.2
      | none => PyVal.none }

/-- A demo prompt whose rendering raises. -/
def demoFailingPrompt : PromptDef :=
  { name := "boom", render := fun _ => Except.error "kaboom" }

/-- A demo server with the above registrations. -/
def demoServer : FastMCPState :=
  { tools := [demoTool],
    resources := [demoResource, demoFailingResource],
    prompts := [demoFailingPrompt] }

/-- C4 counterexample: on the context `get_context` produces outside a request
(no request context, server reference present), `read_resource` does not fail
with the unavailable-outside-request condition — it runs the registered
resource handler (a side effect) and returns its content. -/
theorem context_read_resource_outside_request_runs_handler :
    Context.read_resource (FastMCP.get_context demoServer none) "resource://data"
      = ([Effect.resourceHandlerRun "resource://data"],
          Except.ok [{ content := "hello", mimeType := some "text/plain" }]) := by
  rfl

/-- C4 (amended): on a context with no request context, `report_progress`,
`elicit`, `log` and the level wrappers all fail with the
unavailable-outside-request condition and emit no effects; `read_resource`
checks only the server reference — on the context `get_context` produces it
delegates to the server's `read_resource` (and so may run a handler), and it
fails with the unavailable condition only when the server reference is also
absent. -/
theorem context_methods_outside_request (ctx : Context)
    (h : ctx.request_context = none)
    (p : Rat) (t : Option Rat) (m : Option String)
    (lvl : LogLevel) (msg : String) (ln : Option String)
    (reply : ElicitationOutcome) (s : FastMCPState) (uri : String) :
    ctx.report_progress p t m
        = ([], Except.error (PyErr.valueError unavailableMsg))
    ∧ ctx.elicit msg reply
        = ([], Except.error (PyErr.valueError unavailableMsg))
    ∧ ctx.log lvl msg ln
        = ([], Except.error (PyErr.valueError unavailableMsg))
    ∧ ctx.debug msg = ([], Except.error (PyErr.valueError unavailableMsg))
    ∧ ctx.info msg = ([], Except.error (PyErr.valueError unavailableMsg))
    ∧ ctx.warning msg = ([], Except.error (PyErr.valueError unavailableMsg))
    ∧ ctx.error msg = ([], Except.error (PyErr.valueError unavailableMsg))
    ∧ Context.read_resource (FastMCP.get_context s none) uri
        = fastMCPReadResource s uri
    ∧ Context.read_resource { request_context := none, fastmcp := none } uri
        = ([], Except.error (PyErr.assertionError unavailableMsg)) := by
  refine ⟨?_, ?_, ?_, ?_, ?_, ?_, ?_, rfl, rfl⟩ <;>
    simp [Context.report_progress, Context.elicit, Context.log, Context.debug,
      Context.info, Context.warning, Context.error, h]

/-- Witness for C4 (amended) at a concrete no-request context. -/
theorem context_methods_outside_request_witness :
    (FastMCP.get_context demoServer none).report_progress 24 (some 100) none
      = ([], Except.error (PyErr.valueError unavailableMsg)) :=
  (context_methods_outside_request (FastMCP.get_context demoServer none) rfl
    24 (some 100) none LogLevel.info "msg" none ElicitationOutcome.decline
    demoServer "resource://data").1

/-- C6: with an in-flight request, `report_progress` returns normally and
emits nothing when the request carries no progress token (metadata absent, or
present without a token); with a token present it emits exactly one progress
notification carrying that token and the given progress, total and
message. -/
theorem report_progress_token_behaviour (ctx : Context) (rc : RequestCtx)
    (h : ctx.request_context = some rc)
    (p : Rat) (t : Option Rat) (m : Option String) :
    ((match rc.meta with
      | some me => me.progressToken
      | none => none) = none →
        ctx.report_progress p t m = ([], Except.ok ()))
    ∧ (∀ tok : ProgressToken,
        (match rc.meta with
         | some me => me.progressToken
         | none => none) = some tok →
          ctx.report_progress p t m
            = ([Effect.progressNotification tok p t m], Except.ok ())) := by
  constructor
  · intro htok
    simp [Context.report_progress, h, htok]
  · intro tok htok
    simp [Context.report_progress, h, htok]

/-- Witness for C6: a request with a token emits the one notification; a
request without metadata emits nothing. -/
theorem report_progress_token_behaviour_witness :
    (FastMCP.get_context demoServer
        (some { requestId := "1",
                meta := some { progressToken := some (ProgressToken.int 7) } })).report_progress
        24 (some 100) (some "working")
      = ([Effect.progressNotification (ProgressToken.int 7) 24 (some 100)
            (some "working")], Except.ok ())
    ∧ (FastMCP.get_context demoServer
        (some { requestId := "2", meta := none })).report_progress 24 none none
      = ([], Except.ok ()) :=
  ⟨(report_progress_token_behaviour _
      { requestId := "1",
        meta := some { progressToken := some (ProgressToken.int 7) } } rfl
      24 (some 100) (some "working")).2 (ProgressToken.int 7) rfl,
    (report_progress_token_behaviour _
      { requestId := "2", meta := none } rfl 24 none none).1 rfl⟩

/-- C8: `read_resource` on an unresolved URI raises a resource error naming
the unknown URI with no handler run; a resolved resource handler's exception
is caught, logged, and re-raised as a resource error carrying the handler's
own message; a prompt rendering failure is caught, logged, and re-raised as a
`ValueError` carrying the original message. -/
theorem read_resource_get_prompt_error_surface :
    (∀ (s : FastMCPState) (uri : String),
      get_resource s.resources uri = none →
        fastMCPReadResource s uri
          = ([], Except.error
              (PyErr.resourceError ("Unknown resource: " ++ uri))))
    ∧ (∀ (s : FastMCPState) (uri : String) (r : Resource) (e : String),
        get_resource s.resources uri = some r →
        r.read = Except.error e →
          fastMCPReadResource s uri
            = ([Effect.resourceHandlerRun uri,
                Effect.serverLogError
                  ("Error reading resource " ++ uri ++ ": " ++ e)],
                Except.error (PyErr.resourceError e)))
    ∧ (∀ (s : FastMCPState) (name : String)
        (args : Option (List (String × String))) (e : String),
        render_prompt s.prompts name args = Except.error e →
          fastMCPGetPrompt s name args
            = ([Effect.serverLogError
                  ("Error getting prompt " ++ name ++ ": " ++ e)],
                Except.error (PyErr.valueError e))) := by
  refine ⟨fun s uri h => ?_, fun s uri r e hr he => ?_, fun s name args e h => ?_⟩
  · simp [fastMCPReadResource, h]
  · simp [fastMCPReadResource, hr, he]
  · simp [fastMCPGetPrompt, h]

/-- Witness for C8 on the demo server: an unknown URI, a failing resource
handler, and a failing prompt. -/
theorem read_resource_get_prompt_error_surface_witness :
    fastMCPReadResource demoServer "resource://nope"
      = ([], Except.error
          (PyErr.resourceError "Unknown resource: resource://nope"))
    ∧ fastMCPReadResource demoServer "resource://fail"
      = ([Effect.resourceHandlerRun "resource://fail",
          Effect.serverLogError
            "Error reading resource resource://fail: disk error"],
          Except.error (PyErr.resourceError "disk error"))
    ∧ fastMCPGetPrompt demoServer "boom" none
      = ([Effect.serverLogError "Error getting prompt boom: kaboom"],
          Except.error (PyErr.valueError "kaboom")) :=
  ⟨read_resource_get_prompt_error_surface.1 demoServer "resource://nope"
      rfl,
    read_resource_get_prompt_error_surface.2.1 demoServer "resource://fail"
      demoFailingResource "disk error" rfl rfl,
    read_resource_get_prompt_error_surface.2.2 demoServer "boom" none
      "kaboom" rfl⟩

/-- Modelled from the spec: `ToolManager.call_tool` (the tool registry lives
outside this file's source); per §4.1 it resolves the tool by name — unknown
names signal "not found" — validates the arguments against the tool's
declared input shape — failure signals "invalid arguments" — and then runs
the one matching handler.  The returned trace lists each handler invocation
as (tool name, arguments). -/
def toolManagerCallTool (tools : List ToolDef) (name : String)
    (arguments : List (String × PyVal)) :
    Except PyErr (List (String × List (String × PyVal)) × PyVal) :=
  match tools.find? (fun t => t.name = name) with
  | none => Except.error (PyErr.toolError ("Unknown tool: " ++ name))
  | some t =>
    if t.validArgs arguments then
      Except.ok ([(t.name, arguments)], t.handler arguments)
    else
      Except.error (PyErr.toolError ("Invalid arguments for tool " ++ name))

/-- `FastMCP.call_tool` (server.py lines 270-275): dispatch through the tool
manager, then convert the handler's return value with
`_convert_to_content`. -/
def fastMCPCallTool (s : FastMCPState) (name : String)
    (arguments : List (String × PyVal)) :
    Except PyErr (List (String × List (String × PyVal)) × List ContentBlock) :=
  match toolManagerCallTool s.tools name arguments with
  | Except.error e => Except.error e
  | Except.ok (invocations, result) =>
    Except.ok (invocations, _convert_to_content result)

/-- C5: for a registered tool resolved under `name` and arguments its declared
input shape accepts, `call_tool` invokes exactly one handler — the one
registered under that name — and returns exactly `_convert_to_content` of
that handler's return value, so the result is determined by the handler's
return value. -/
theorem call_tool_dispatch (s : FastMCPState) (name : String)
    (arguments : List (String × PyVal)) (t : ToolDef)
    (hfind : s.tools.find? (fun t => t.name = name) = some t)
    (hvalid : t.validArgs arguments = true) :
    fastMCPCallTool s name arguments
      = Except.ok ([(t.name, arguments)],
          _convert_to_content (t.handler arguments))
    ∧ t.name = name := by
  have hname : t.name = name := by
    have := List.find?_some hfind
    simpa using this
  refine ⟨?_, hname⟩
  simp [fastMCPCallTool, toolManagerCallTool, hfind, hvalid]

/-- Witness for C5: calling the demo `echo` tool with `x := "hi"` runs just
that handler and yields one verbatim text block. -/
theorem call_tool_dispatch_witness :
    fastMCPCallTool demoServer "echo" [("x", PyVal.str "hi")]
      = Except.ok ([("echo", [("x", PyVal.str "hi")])],
          [ContentBlock.text "hi"]) :=
  (call_tool_dispatch demoServer "echo" [("x", PyVal.str "hi")] demoTool
    rfl rfl).1

/-- The mutable session-manager slot of one `FastMCP` instance, together with
a count of how many `StreamableHTTPSessionManager` constructions have
happened; a manager is identified by its construction index. -/
structure HttpState where
  session_manager : Option Nat
  created_count : Nat
deriving DecidableEq, Repr

/-- `FastMCP.__init__` (server.py line 177): `self._session_manager = None`,
no manager constructed yet. -/
def initHttpState : HttpState :=
  { session_manager := none, created_count := 0 }

/-- The message of the `RuntimeError` the `session_manager` accessor raises
(server.py lines 203-209; the Python source concatenates the fragments
without separating spaces, reproduced verbatim). -/
def sessionManagerErrMsg : String :=
  "Session manager can only be accessed after" ++ "calling streamable_http_app()."
    ++ "The session manager is created lazily" ++ "to avoid unnecessary initialization."

/-- The `FastMCP.session_manager` accessor (server.py lines 193-210): raises a
`RuntimeError` while the slot is empty, returns the stored manager
otherwise. -/
def session_manager_get (s : HttpState) : Except PyErr Nat :=
  match s.session_manager with
  | none => Except.error (PyErr.runtimeError sessionManagerErrMsg)
  | some m => Except.ok m

/-- `FastMCP.streamable_http_app` (server.py lines 805-818): constructs the
session manager on the first call only, storing it in the slot; later calls
reuse the stored manager.  Returns the new state and the manager wired into
the returned app. -/
def streamable_http_app (s : HttpState) : HttpState × Nat :=
  match s.session_manager with
  | none =>
    ({ session_manager := some s.created_count,
       created_count := s.created_count + 1 }, s.created_count)
  | some m => (s, m)

/-- C9: reading `session_manager` before any `streamable_http_app` call fails
with the runtime error; the first `streamable_http_app` call constructs
exactly one manager, and from any state that already holds a manager both the
accessor and further `streamable_http_app` calls return that same manager
with the state unchanged (no second construction). -/
theorem session_manager_lifecycle :
    session_manager_get initHttpState
      = Except.error (PyErr.runtimeError sessionManagerErrMsg)
    ∧ (streamable_http_app initHttpState).1.session_manager
        = some (streamable_http_app initHttpState).2
    ∧ (streamable_http_app initHttpState).1.created_count = 1
    ∧ (∀ (s : HttpState) (m : Nat), s.session_manager = some m →
        streamable_http_app s = (s, m)
        ∧ session_manager_get s = Except.ok m) := by
  refine ⟨rfl, rfl, rfl, fun s m h => ?_⟩
  constructor
  · simp [streamable_http_app, h]
  · simp [session_manager_get, h]

/-- Witness for C9: after the first call on a fresh server, the accessor and a
second call both yield the one constructed manager unchanged. -/
theorem session_manager_lifecycle_witness :
    streamable_http_app (streamable_http_app initHttpState).1
      = ((streamable_http_app initHttpState).1,
          (streamable_http_app initHttpState).2)
    ∧ session_manager_get (streamable_http_app initHttpState).1
      = Except.ok (streamable_http_app initHttpState).2 :=
  session_manager_lifecycle.2.2.2 (streamable_http_app initHttpState).1
    (streamable_http_app initHttpState).2 rfl

/-- A word character in the sense of the `\w` class of the pattern
`re.findall(r"\x7b(\w+)\x7d", uri)`: alphanumeric or underscore. -/
def isWordChar (c : Char) : Bool :=
  c.isAlphanum || c = '_'

/-- Longest word-character run at the front of a string, plus the rest. -/
def takeWord : List Char → List Char × List Char
  | [] => ([], [])
  | c :: rest =>
    if isWordChar c then
      (c :: (takeWord rest).1, (takeWord rest).2)
    else ([], c :: rest)

/-- `re.findall(r"\x7b(\w+)\x7d", uri)` (server.py line 472): all placeholder
names, left to right.  Matches of this pattern cannot overlap (no brace
occurs inside a match), so scanning every position is equivalent to the
non-overlapping scan `re.findall` performs. -/
def findPlaceholders : List Char → List (List Char)
  | [] => []
  | c :: rest =>
    if c = '{' then
      match takeWord rest with
      | ([], _) => findPlaceholders rest
      | (w :: ws, r) =>
        if r.head? = some '}' then (w :: ws) :: findPlaceholders rest
        else findPlaceholders rest
    else findPlaceholders rest

/-- Boolean set equality of two name lists, as Python's
`set(a) != set(b)` test decides it: mutual containment. -/
def listSetEq (a b : List (List Char)) : Bool :=
  a.all (fun x => b.contains x) && b.all (fun x => a.contains x)

/-- What the `FastMCP.resource` decorator registers on success. -/
inductive ResourceRegistration where
  | template (uriTemplate : List Char)
  | plain (uri : List Char)
deriving DecidableEq, Repr

/-- The `FastMCP.resource` decorator (server.py lines 412-502) restricted to
the registration decision: with a brace pair in the URI or a nonempty handler
parameter list, the placeholder-name set must equal the parameter-name set —
mismatch raises a `ValueError` before anything is stored, equality registers
a template; otherwise a plain resource is registered.  (The Python error
message also interpolates the two sets; the set reprs are elided.) -/
def fastMCPResource (uri : List Char) (fnParams : List (List Char)) :
    Except PyErr ResourceRegistration :=
  let has_uri_params := uri.contains '{' && uri.contains '}'
  let has_func_params := !fnParams.isEmpty
  if has_uri_params || has_func_params then
    if listSetEq (findPlaceholders uri) fnParams then
      Except.ok (ResourceRegistration.template uri)
    else
      Except.error (PyErr.valueError
        "Mismatch between URI parameters and function parameters")
  else
    Except.ok (ResourceRegistration.plain uri)

/-- The rest returned by `takeWord` is made of characters of the input. -/
theorem takeWord_snd_mem (l : List Char) (x : Char)
    (h : x ∈ (takeWord l).2) : x ∈ l := by
  induction l with
  | nil => simp [takeWord] at h
  | cons c rest ih =>
    by_cases hc : isWordChar c
    · simp only [takeWord, hc, if_pos] at h
      exact List.mem_cons_of_mem c (ih h)
    · simpa [takeWord, hc] using h

/-- A string with at least one placeholder contains both braces. -/
theorem findPlaceholders_ne_nil_braces (l : List Char)
    (h : findPlaceholders l ≠ []) : '{' ∈ l ∧ '}' ∈ l := by
  induction l with
  | nil => simp [findPlaceholders] at h
  | cons c rest ih =>
    by_cases hc : c = '{'
    · subst hc
      simp only [findPlaceholders, if_pos] at h
      rcases htw : takeWord rest with ⟨w, r⟩
      rw [htw] at h
      cases w with
      | nil =>
        simp only at h
        rcases ih h with ⟨h1, h2⟩
        exact ⟨List.mem_cons_self _ _, List.mem_cons_of_mem _ h2⟩
      | cons w0 ws =>
        by_cases hr : r.head? = some '}'
        · refine ⟨List.mem_cons_self _ _, List.mem_cons_of_mem _ ?_⟩
          have hmem : '}' ∈ r := by
            cases r with
            | nil => simp at hr
            | cons r0 r2 =>
              have : r0 = '}' := by simpa using hr
              exact this ▸ List.mem_cons_self _ _
          exact takeWord_snd_mem rest '}' (by rw [htw]; exact hmem)
        · simp only [hr, if_false, if_neg] at h
          rcases ih h with ⟨h1, h2⟩
          exact ⟨List.mem_cons_self _ _, List.mem_cons_of_mem _ h2⟩
    · simp only [findPlaceholders, hc, if_neg, not_false_iff] at h
      rcases ih h with ⟨h1, h2⟩
      exact ⟨List.mem_cons_of_mem _ h1, List.mem_cons_of_mem _ h2⟩

/-- C7: whenever the URI has a placeholder or the handler declares
parameters, the decorator raises at registration time exactly when the
placeholder-name set differs from the parameter-name set, and registers the
resource as a template (raising nothing) when the two sets agree. -/
theorem resource_decorator_param_check (uri : List Char)
    (fnParams : List (List Char))
    (h : findPlaceholders uri ≠ [] ∨ fnParams ≠ []) :
    (listSetEq (findPlaceholders uri) fnParams = false →
      fastMCPResource uri fnParams
        = Except.error (PyErr.valueError
            "Mismatch between URI parameters and function parameters"))
    ∧ (listSetEq (findPlaceholders uri) fnParams = true →
      fastMCPResource uri fnParams
        = Except.ok (ResourceRegistration.template uri)) := by
  have hbranch : (uri.contains '{' && uri.contains '}' || !fnParams.isEmpty) = true := by
    rcases h with h | h
    · rcases findPlaceholders_ne_nil_braces uri h with ⟨h1, h2⟩
      show (List.elem '{' uri && List.elem '}' uri || !fnParams.isEmpty) = true
      rw [List.elem_eq_true_of_mem h1, List.elem_eq_true_of_mem h2]
      rfl
    · have he : fnParams.isEmpty = false := by
        cases fnParams with
        | nil => exact absurd rfl h
        | cons a l => rfl
      rw [he, Bool.not_false, Bool.or_true]
  constructor
  · intro hne
    simp only [fastMCPResource, hbranch, if_true, hne, if_false, Bool.false_eq_true]
  · intro heq
    simp only [fastMCPResource, hbranch, if_true, heq, if_false]

/-- Witness for C7: `resource://{city}/weather` registers as a template with
parameter `city` and raises with parameter `town`. -/
theorem resource_decorator_param_check_witness :
    fastMCPResource "resource://\x7bcity\x7d/weather".data ["city".data]
      = Except.ok
          (ResourceRegistration.template "resource://\x7bcity\x7d/weather".data)
    ∧ fastMCPResource "resource://\x7bcity\x7d/weather".data ["town".data]
      = Except.error (PyErr.valueError
          "Mismatch between URI parameters and function parameters") :=
  ⟨(resource_decorator_param_check "resource://\x7bcity\x7d/weather".data
      ["city".data] (Or.inr (by decide))).2 (by decide),
    (resource_decorator_param_check "resource://\x7bcity\x7d/weather".data
      ["town".data] (Or.inr (by decide))).1 (by decide)⟩

/-- Maximal nonempty `/`-separated segments; `acc` holds the reversed current
segment. -/
def segsAux : List Char → List Char → List (List Char)
  | acc, [] => if acc = [] then [] else [acc.reverse]
  | acc, c :: rest =>
    if c = '/' then
      if acc = [] then segsAux [] rest else acc.reverse :: segsAux [] rest
    else segsAux (c :: acc) rest

/-- The maximal nonempty `/`-separated segments of a path. -/
def segs (s : List Char) : List (List Char) :=
  segsAux [] s

/-- `FastMCP._normalize_path` (server.py lines 646-670), with Python strings
as character lists: the root mount path passes the endpoint through; any
other mount path loses one trailing slash (when present) and is concatenated
with the endpoint, a slash being prefixed to the endpoint unless it already
starts with one. -/
def _normalize_path (mount_path endpoint : List Char) : List Char :=
  if mount_path = ['/'] then endpoint
  else
    let mount_path2 :=
      if mount_path.getLast? = some '/' then mount_path.dropLast else mount_path
    let endpoint2 :=
      if endpoint.head? = some '/' then endpoint else '/' :: endpoint
    mount_path2 ++ endpoint2

/-- Splitting distributes over an interior slash. -/
theorem segsAux_append_slash (xs : List Char) :
    ∀ (acc ys : List Char),
      segsAux acc (xs ++ '/' :: ys) = segsAux acc xs ++ segsAux [] ys := by
  induction xs with
  | nil =>
    intro acc ys
    by_cases ha : acc = []
    · simp [segsAux, ha]
    · simp [segsAux, ha]
  | cons c rest ih =>
    intro acc ys
    by_cases hc : c = '/'
    · subst hc
      by_cases ha : acc = []
      · simp [segsAux, ha, ih]
      · simp [segsAux, ha, ih]
    · simp [segsAux, hc, ih]

/-- A trailing slash never contributes a segment. -/
theorem segsAux_concat_slash (l acc : List Char) :
    segsAux acc (l ++ ['/']) = segsAux acc l := by
  have h := segsAux_append_slash l acc []
  simpa [segsAux] using h

/-- A list ending in `/` is its `dropLast` with `/` appended. -/
theorem getLast_slash_decomp (l : List Char) (h : l.getLast? = some '/') :
    l = l.dropLast ++ ['/'] := by
  induction l with
  | nil => simp at h
  | cons c rest ih =>
    cases rest with
    | nil =>
      simp only [List.getLast?_singleton, Option.some_inj] at h
      simp [h]
    | cons r rs =>
      have h2 : (r :: rs).getLast? = some '/' := by
        simpa [List.getLast?_cons_cons] using h
      have := ih h2
      calc c :: r :: rs = c :: ((r :: rs).dropLast ++ ['/']) := by rw [← this]
        _ = (c :: r :: rs).dropLast ++ ['/'] := rfl

/-- C10: `_normalize_path` returns the endpoint unchanged for the root mount
path; otherwise it returns the mount path with one trailing slash removed
(when present) concatenated with the endpoint, a slash being prefixed unless
the endpoint already starts with one — and consequently, for a non-root
mount path, the result's nonempty segments are exactly the mount path's
segments followed by the endpoint's segments. -/
theorem normalize_path_characterisation (mp ep : List Char) :
    (mp = ['/'] → _normalize_path mp ep = ep)
    ∧ (mp ≠ ['/'] →
        _normalize_path mp ep
          = (if mp.getLast? = some '/' then mp.dropLast else mp)
            ++ (if ep.head? = some '/' then ep else '/' :: ep)
        ∧ segs (_normalize_path mp ep) = segs mp ++ segs ep) := by
  constructor
  · intro h
    simp [_normalize_path, h]
  · intro h
    have heq : _normalize_path mp ep
        = (if mp.getLast? = some '/' then mp.dropLast else mp)
          ++ (if ep.head? = some '/' then ep else '/' :: ep) := by
      simp [_normalize_path, h]
    refine ⟨heq, ?_⟩
    rw [heq]
    have hmp : segsAux [] (if mp.getLast? = some '/' then mp.dropLast else mp)
        = segsAux [] mp := by
      by_cases hl : mp.getLast? = some '/'
      · rw [if_pos hl]
        conv_rhs => rw [getLast_slash_decomp mp hl]
        rw [segsAux_concat_slash]
      · rw [if_neg hl]
    by_cases hh : ep.head? = some '/'
    · rw [if_pos hh]
      cases ep with
      | nil => simp at hh
      | cons e0 et =>
        have he0 : e0 = '/' := by simpa using hh
        subst he0
        show segsAux [] (_ ++ '/' :: et) = _
        rw [segsAux_append_slash, hmp]
        simp [segs, segsAux]
    · rw [if_neg hh]
      show segsAux [] (_ ++ '/' :: ep) = _
      rw [segsAux_append_slash, hmp]
      rfl

/-- Witness for C10 at a concrete mount path and endpoint. -/
theorem normalize_path_characterisation_witness :
    _normalize_path "/github".data "/messages/".data
      = "/github/messages/".data
    ∧ segs (_normalize_path "/github".data "/messages/".data)
      = segs "/github".data ++ segs "/messages/".data := by
  have h := (normalize_path_characterisation "/github".data "/messages/".data).2
    (by decide)
  exact ⟨by rw [h.1]; decide, h.2⟩

end Mcp
